import Mathlib

/-!
Verification of the xrpc-server dispatch engine
(packages/xrpc-server/src/server.ts) against its natural-language
specification.  The definitions below are a shallow embedding of the
request pipeline, the rate-limiting subsystem, the streaming
subscription generator and the error normalizer.  Parts of the package
that are imported by server.ts but whose sources are not available
(types.ts, util.ts, rate-limiter.ts, stream.ts) are modelled from the
specification; each such definition says so in its doc comment.
-/

namespace XrpcServer

set_option maxRecDepth 8192

/-! ### Error normalizer (types.ts is not under src/; modelled from the spec) -/

/-- Modelled from the spec: the default machine-readable error name for each
status classification of the error taxonomy (InvalidRequest, AuthRequired,
RateLimitExceeded, MethodNotImplemented, InternalServerError). -/
def statusErrorName : Nat → Option String
  | 400 => some ("InvalidRequest")
  | 401 => some ("AuthRequired")
  | 429 => some ("RateLimitExceeded")
  | 501 => some ("MethodNotImplemented")
  | 500 => some ("InternalServerError")
  | _ => none

/-- Modelled from the spec: a wire-level XRPC error, with a numeric status
classification, an optional custom error name and an optional human message
(types.ts is not under src/). -/
structure XRPCError where
  status : Nat
  customName : Option String
  message : Option String
deriving DecidableEq

/-- Modelled from the spec: the JSON payload of a wire error, of shape
error name plus message. -/
structure ErrPayload where
  error : Option String
  message : Option String
deriving DecidableEq

/-- The payload of a wire error: the custom error name when present,
otherwise the default name of the status classification. -/
def XRPCError.payload (e : XRPCError) : ErrPayload :=
  ⟨e.customName <|> statusErrorName e.status, e.message⟩

def invalidRequestError (m : String) : XRPCError := ⟨400, none, some m⟩

def methodNotImplementedError : XRPCError := ⟨501, none, none⟩

def rateLimitExceededError : XRPCError := ⟨429, none, none⟩

def internalServerError : XRPCError := ⟨500, none, none⟩

/-- A value raised (or passed to the error middleware) somewhere in the
pipeline: an XRPCError, a declared handler-error value of shape
status/name/message, a falsy value, or any other unknown thrown value. -/
inductive ErrVal where
  | xrpc (e : XRPCError)
  | handler (status : Nat) (name : Option String) (message : Option String)
  | falsy
  | unknown (tag : String)
deriving DecidableEq

/-- Modelled from the spec: XRPCError.fromHandlerError (types.ts is not
under src/) converts a declared handler-error value into the wire error of
the same status, name and message. -/
def XRPCError.fromHandlerError (status : Nat) (name message : Option String) :
    XRPCError :=
  ⟨status, name, message⟩

/-- Modelled from the spec: XRPCError.fromError (types.ts is not under
src/), the single error normalizer.  An XRPCError passes through unchanged,
a declared handler-error value is converted to its wire error, and any
unknown or falsy failure is coerced to InternalServerError so that error
routing never silently drops a failure. -/
def XRPCError.fromError : ErrVal → XRPCError
  | ErrVal.xrpc e => e
  | ErrVal.handler s n m => XRPCError.fromHandlerError s n m
  | ErrVal.falsy => internalServerError
  | ErrVal.unknown _ => internalServerError

/-! ### Lexicon values -/

/-- A structured lexicon value: a string, an integer, or a map from field
names to values (sufficient for the frame-normalization logic, which only
distinguishes maps with a string valued type field from everything else). -/
inductive LexValue where
  | str (s : String)
  | int (n : Int)
  | map (fields : List (String × LexValue))

/-- First binding of a field name in a map, mirroring property access on a
JavaScript object (whose keys are unique). -/
def findField (fields : List (String × LexValue)) (k : String) :
    Option LexValue :=
  match fields with
  | [] => none
  | (k2, v) :: rest => if k2 = k then some v else findField rest k

/-- Removal of a field from a map, mirroring the delete operator on a
JavaScript object. -/
def removeField (fields : List (String × LexValue)) (k : String) :
    List (String × LexValue) :=
  fields.filter (fun p => p.1 ≠ k)

/-! ### Frames and the subscription generator (server.ts, addSubscription) -/

/-- Modelled from the spec: a frame, the unit of the subscription wire
protocol (stream.ts is not under src/): either a message frame carrying a
payload and an optional type tag, or an error frame carrying an error code
and an optional message. -/
inductive Frame where
  | message (payload : LexValue) (ty : Option String)
  | error (code : String) (message : Option String)

/-- Whether a frame is an error frame. -/
def Frame.isErr : Frame → Bool
  | Frame.message _ _ => false
  | Frame.error _ _ => true

/-- An item yielded by a subscription handler: either an already-built
frame, or a plain structured value. -/
inductive SubItem where
  | frame (f : Frame)
  | value (v : LexValue)

/-- Whether a handler item is itself a pre-built error frame. -/
def SubItem.isRawError : SubItem → Bool
  | SubItem.frame (Frame.error _ _) => true
  | _ => false

/-- Splitting a character list at every hash character, keeping empty
pieces, mirroring the JavaScript String.split method with a hash separator
(used on the declared type of a yielded value in server.ts line 406). -/
def splitHashAux : List Char → List Char → List (List Char)
  | [], acc => [acc.reverse]
  | c :: rest, acc =>
    if c = '#' then acc.reverse :: splitHashAux rest []
    else splitHashAux rest (c :: acc)

/-- JavaScript String.split with a hash separator, on Lean strings. -/
def splitHash (s : String) : List String :=
  (splitHashAux s.toList []).map List.asString

/-- server.ts lines 396-418: normalization of one handler item to a frame.
An item that is already a frame passes through unchanged.  A map value with
a string valued type field is wrapped as a message frame whose tag is the
short local form when the type splits on the hash sign into exactly two
parts whose first part is empty or equals the subscription nsid, and whose
payload is the map without its type field; any other type is kept in full.
Any other item is wrapped as a message frame without a tag. -/
def normalizeItem (nsid : String) (item : SubItem) : Frame :=
  match item with
  | SubItem.frame f => f
  | SubItem.value v =>
    match v with
    | LexValue.map fields =>
      match findField fields ("$type") with
      | some (LexValue.str t) =>
        let parts := splitHash t
        let tag :=
          if parts.length = 2 ∧
              (parts.head? = some ("") ∨ parts.head? = some nsid) then
            "#" ++ ((parts.get? 1).getD (""))
          else t
        Frame.message (LexValue.map (removeField fields ("$type")))
          (some tag)
      | _ => Frame.message v none
    | _ => Frame.message v none

/-- server.ts lines 420-426: the error frame emitted by the catch block of
the subscription generator, built from the normalized error payload. -/
def errorFrameOfErr (e : ErrVal) : Frame :=
  Frame.error (((XRPCError.fromError e).payload).error.getD ("Unknown"))
    ((XRPCError.fromError e).payload).message

/-- The outcome of the optional auth verifier of a subscription: success
(or no verifier configured), a declared handler-error result, or a raised
failure. -/
inductive AuthRes where
  | ok
  | handlerErr (status : Nat) (name : Option String) (message : Option String)
  | threw (e : ErrVal)

/-- One run of a subscription connection: the auth outcome, the outcome of
parameter validation (some message when it raised), the items the handler
yielded, and an optional failure the handler raised after yielding them
(none when its sequence ended cleanly). -/
structure SubRun where
  auth : AuthRes
  paramsErr : Option String
  items : List SubItem
  streamErr : Option ErrVal

/-- server.ts lines 380-427: the frame sequence produced by the generator
installed by addSubscription.  Auth failures and parameter-validation
failures raise before the handler runs; every raised failure is caught by
the single catch block and emitted as one error frame, ending the
sequence. -/
def subscriptionFrames (nsid : String) (run : SubRun) : List Frame :=
  match run.auth with
  | AuthRes.handlerErr s n m =>
    [errorFrameOfErr (ErrVal.xrpc (XRPCError.fromHandlerError s n m))]
  | AuthRes.threw e => [errorFrameOfErr e]
  | AuthRes.ok =>
    match run.paramsErr with
    | some msg => [errorFrameOfErr (ErrVal.xrpc (invalidRequestError msg))]
    | none =>
      run.items.map (normalizeItem nsid) ++
        (match run.streamErr with
         | some e => [errorFrameOfErr e]
         | none => [])

/-! ### Rate limiter subsystem (server.ts, setupRouteRateLimits; the
counter store and rate-limiter.ts are not under src/ and are modelled from
the spec) -/

/-- The request context a rate limiter sees: the network origin and the
decoded parameters (empty before parameter decoding). -/
structure RlCtx where
  ip : String
  params : List (String × String)

/-- Modelled from the spec: the external rate-limit counter store, a map
from the limiter key prefix and the computed key to the points consumed in
the current window. -/
def RlStore := List ((String × String) × Nat)

/-- Points already consumed from a counter of the store. -/
def storeGet (st : RlStore) (pfx key : String) : Nat :=
  match st with
  | [] => 0
  | (k2, n) :: rest => if k2 = (pfx, key) then n else storeGet rest pfx key

/-- Record a new consumed-points total for a counter of the store. -/
def storeSet (st : RlStore) (pfx key : String) (n : Nat) : RlStore :=
  match st with
  | [] => [((pfx, key), n)]
  | (k2, n2) :: rest =>
    if k2 = (pfx, key) then (k2, n) :: rest
    else (k2, n2) :: storeSet rest pfx key n

/-- Modelled from the spec: debit pts points from the counter of the given
key prefix and key, against a point budget; rejected (and undebited) when
the budget would be exceeded. -/
def storeDebit (st : RlStore) (pfx key : String) (pts budget : Nat) :
    RlStore × Bool :=
  let cur := storeGet st pfx key
  if cur + pts ≤ budget then (storeSet st pfx key (cur + pts), true)
  else (st, false)

/-- A rate limiter instance as built by the creator: its key prefix, window
duration and point budget. -/
structure RateLimiterInst where
  prefixKey : String
  durationMs : Nat
  points : Nat

/-- Modelled from the spec: consuming one limiter.  The key defaults to the
network origin unless a key-derivation function is supplied, the cost
defaults to one point unless a cost-derivation function is supplied, and
the external store debits that counter. -/
def RateLimiterInst.consume (l : RateLimiterInst) (st : RlStore)
    (ctx : RlCtx) (calcKey : Option (RlCtx → String))
    (calcPoints : Option (RlCtx → Nat)) : RlStore × Bool :=
  let key := match calcKey with
    | some f => f ctx
    | none => ctx.ip
  let pts := match calcPoints with
    | some f => f ctx
    | none => 1
  storeDebit st l.prefixKey key pts l.points

/-- A rate-limit spec attached to a method config: its scope flag (shared
by name, or per-method), window, budget, and optional key- and
cost-derivation functions. -/
structure RateLimitSpecM where
  shared : Bool
  name : String
  durationMs : Nat
  points : Nat
  calcKey : Option (RlCtx → String)
  calcPoints : Option (RlCtx → Nat)

/-- A consume function installed for a route: the limiter it debits plus
the key- and cost-derivation overrides passed at consume time. -/
structure InstalledRl where
  limiter : RateLimiterInst
  calcKey : Option (RlCtx → String)
  calcPoints : Option (RlCtx → Nat)

/-- Consume an installed route limiter against the store. -/
def InstalledRl.consumeOn (f : InstalledRl) (st : RlStore) (ctx : RlCtx) :
    RlStore × Bool :=
  f.limiter.consume st ctx f.calcKey f.calcPoints

/-- The server rate-limit state touched by route registration: the shared
limiter table and, for the route being registered, the basic (pre
validation) and parametric (post validation) consume-function pools. -/
structure ServerRl where
  sharedRateLimiters : List (String × RateLimiterInst)
  basicFns : List InstalledRl
  paramFns : List InstalledRl

/-- First limiter registered under a name in the shared table (JavaScript
record keys are unique). -/
def lookupShared (tbl : List (String × RateLimiterInst)) (name : String) :
    Option RateLimiterInst :=
  match tbl with
  | [] => none
  | (k, v) :: rest => if k = name then some v else lookupShared rest name

/-- Overwrite-or-append of a key in the shared table, mirroring assignment
to a JavaScript record key. -/
def assocSet (tbl : List (String × RateLimiterInst)) (name : String)
    (v : RateLimiterInst) : List (String × RateLimiterInst) :=
  match tbl with
  | [] => [(name, v)]
  | (k, v2) :: rest =>
    if k = name then (k, v) :: rest else (k, v2) :: assocSet rest name v

/-- server.ts lines 461-508, one iteration of the loop over the configured
rate-limit specs at position i.  A shared spec installs a consume function
for the limiter found under its name in the shared table and is dropped
without error when none is found.  A non-shared spec (when a creator is
configured) creates a private limiter whose key prefix is the literal
string nsid joined with the position index, registers it in the shared
table under the method nsid, and installs its consume function.  A spec
with neither derivation function goes to the basic pool, any other spec to
the parametric pool. -/
def setupStep (creator : Bool) (nsid : String) (st : ServerRl) (i : Nat)
    (spec : RateLimitSpecM) : ServerRl :=
  if spec.shared then
    match lookupShared st.sharedRateLimiters spec.name with
    | some limiter =>
      let inst : InstalledRl := ⟨limiter, spec.calcKey, spec.calcPoints⟩
      if spec.calcKey.isNone ∧ spec.calcPoints.isNone then
        { st with basicFns := st.basicFns ++ [inst] }
      else
        { st with paramFns := st.paramFns ++ [inst] }
    | none => st
  else
    if creator then
      let limiter : RateLimiterInst :=
        ⟨"nsid-" ++ toString i, spec.durationMs, spec.points⟩
      let inst : InstalledRl := ⟨limiter, spec.calcKey, spec.calcPoints⟩
      let st2 :=
        { st with
          sharedRateLimiters := assocSet st.sharedRateLimiters nsid limiter }
      if spec.calcKey.isNone ∧ spec.calcPoints.isNone then
        { st2 with basicFns := st2.basicFns ++ [inst] }
      else
        { st2 with paramFns := st2.paramFns ++ [inst] }
    else st

/-- The indexed loop of setupRouteRateLimits over the configured specs. -/
def setupLoop (creator : Bool) (nsid : String) (i : Nat) (st : ServerRl) :
    List RateLimitSpecM → ServerRl
  | [] => st
  | spec :: rest =>
    setupLoop creator nsid (i + 1) (setupStep creator nsid st i spec) rest

/-- server.ts lines 451-509: route rate-limit setup.  The basic pool is
reset and receives one consume function per global limiter (with no
derivation overrides), the parametric pool is reset, and then each
configured spec is processed in order by setupStep. -/
def setupRouteRateLimits (creator : Bool) (globals : List RateLimiterInst)
    (nsid : String) (cfgLimits : List RateLimitSpecM)
    (shared0 : List (String × RateLimiterInst)) : ServerRl :=
  setupLoop creator nsid 0
    ⟨shared0, globals.map (fun g => ⟨g, none, none⟩), []⟩ cfgLimits

/-! ### The request pipeline (server.ts, createHandler) -/

/-- Outcome of a consumeMany call over a pool: all allowed, or one limiter
exceeded its budget. -/
inductive RlOut where
  | allowed
  | exceeded
deriving DecidableEq

/-- The value a handler produces: an empty success, a pipe-through buffer
or stream, a declared handler-error value, an ordinary success whose body
does (or does not) satisfy the output schema, or a raised failure. -/
inductive HandlerOut where
  | empty (valid : Bool)
  | pipeBuf
  | pipeStream
  | handlerErr (status : Nat) (name : Option String) (message : Option String)
  | success (valid : Bool)
  | threw (e : ErrVal)

/-- The stage outcomes of one request as seen by the route handler: the
basic rate-limit outcome, the parameter-validation outcome (some message
when assertValidXrpcParams raised), the input-validation outcome (some
failure when validateInput raised), the parametric rate-limit outcome and
the handler result. -/
structure HReq where
  basicRl : RlOut
  paramsErr : Option String
  inputErr : Option ErrVal
  paramRl : RlOut
  output : HandlerOut

/-- Observable pipeline events, in the order the route handler performs
them. -/
inductive HEv where
  | consumeBasic
  | decodeParams
  | validateParams
  | validateInput
  | consumeParam
  | invokeHandler
  | validateOutput
deriving DecidableEq

/-- The final disposition of a request: a response was written with a
status, or an error value was passed to the error middleware. -/
inductive HRes where
  | respond (status : Nat)
  | nextErr (e : ErrVal)
deriving DecidableEq

/-- server.ts lines 356-365: the catch block of the route handler replaces
a falsy raised value by InternalServerError and forwards anything else. -/
def catchWrap (e : ErrVal) : ErrVal :=
  match e with
  | ErrVal.falsy => ErrVal.xrpc internalServerError
  | e2 => e2

/-- The basic rate-limit events of a request: one consumeMany call when the
basic pool is nonempty, none otherwise. -/
def basicTracePart (nBasic : Nat) : List HEv :=
  if nBasic ≠ 0 then [HEv.consumeBasic] else []

/-- server.ts lines 312-355 as seen from the handler-invocation point:
dispatch on the handler result.  Response validation (when enabled) runs
only on the empty and ordinary success variants and raises
InternalServerError on mismatch (validateOutput of util.ts is not under
src/ and is modelled from the spec); pipe-through results are sent as is; a
declared handler-error value is normalized and passed to the error
middleware; a raised failure is caught and forwarded. -/
def outputPhase (validateResp : Bool) (o : HandlerOut) : List HEv × HRes :=
  match o with
  | HandlerOut.empty v =>
    if validateResp then
      if v then ([HEv.invokeHandler, HEv.validateOutput], HRes.respond 200)
      else ([HEv.invokeHandler, HEv.validateOutput],
        HRes.nextErr (ErrVal.xrpc internalServerError))
    else ([HEv.invokeHandler], HRes.respond 200)
  | HandlerOut.pipeBuf => ([HEv.invokeHandler], HRes.respond 200)
  | HandlerOut.pipeStream => ([HEv.invokeHandler], HRes.respond 200)
  | HandlerOut.handlerErr s n m =>
    ([HEv.invokeHandler],
      HRes.nextErr (ErrVal.xrpc (XRPCError.fromError (ErrVal.handler s n m))))
  | HandlerOut.success v =>
    if validateResp then
      if v then ([HEv.invokeHandler, HEv.validateOutput], HRes.respond 200)
      else ([HEv.invokeHandler, HEv.validateOutput],
        HRes.nextErr (ErrVal.xrpc internalServerError))
    else ([HEv.invokeHandler], HRes.respond 200)
  | HandlerOut.threw e => ([HEv.invokeHandler], HRes.nextErr (catchWrap e))

/-- server.ts lines 269-366: the route handler returned by createHandler.
When the basic pool is nonempty its limiters are consumed first and a
rejection stops the request; then query parameters are decoded and
validated, then the input is validated, then (when the parametric pool is
nonempty) the parametric limiters are consumed, and only then is the
handler invoked and its result dispatched.  The event trace records the
order. -/
def createHandlerRun (nBasic nParam : Nat) (validateResp : Bool)
    (r : HReq) : List HEv × HRes :=
  if nBasic ≠ 0 ∧ r.basicRl = RlOut.exceeded then
    (basicTracePart nBasic, HRes.nextErr (ErrVal.xrpc rateLimitExceededError))
  else
    match r.paramsErr with
    | some m =>
      (basicTracePart nBasic ++ [HEv.decodeParams, HEv.validateParams],
        HRes.nextErr (ErrVal.xrpc (invalidRequestError m)))
    | none =>
      match r.inputErr with
      | some e =>
        (basicTracePart nBasic ++
            [HEv.decodeParams, HEv.validateParams, HEv.validateInput],
          HRes.nextErr (catchWrap e))
      | none =>
        if nParam ≠ 0 ∧ r.paramRl = RlOut.exceeded then
          (basicTracePart nBasic ++
              [HEv.decodeParams, HEv.validateParams, HEv.validateInput,
                HEv.consumeParam],
            HRes.nextErr (ErrVal.xrpc rateLimitExceededError))
        else
          let tail := outputPhase validateResp r.output
          (basicTracePart nBasic ++
              [HEv.decodeParams, HEv.validateParams, HEv.validateInput] ++
              (if nParam ≠ 0 then [HEv.consumeParam] else []) ++ tail.1,
            tail.2)

/-- server.ts lines 249-253: whether response validation is enabled, from
the validateResponse option.  It is enabled unless the option is literally
false, so it is on by default. -/
def responseValidationEnabled (opt : Option Bool) : Bool :=
  opt ≠ some false

/-- server.ts lines 555-577 (errorMiddleware): the wire outcome of an error
passed to the error middleware.  When headers were already sent the failure
is propagated to the transport fallback; otherwise the normalized error is
written with its status and payload. -/
inductive WireOut where
  | ok (status : Nat)
  | err (status : Nat) (payload : ErrPayload)
  | transportFallback
deriving DecidableEq

/-- The wire outcome of a request disposition. -/
def wireResult (headersSent : Bool) (res : HRes) : WireOut :=
  match res with
  | HRes.respond s => WireOut.ok s
  | HRes.nextErr e =>
    if headersSent then WireOut.transportFallback
    else
      WireOut.err (XRPCError.fromError e).status (XRPCError.fromError e).payload

/-! ### Routing and the catchall (server.ts, addRoute / catchall) -/

inductive Verb where
  | get
  | post
deriving DecidableEq

def verbName : Verb → String
  | Verb.get => "GET"
  | Verb.post => "POST"

inductive MethodKind where
  | query
  | procedure
  | subscription
deriving DecidableEq

/-- server.ts line 173: the HTTP verb a method kind is served under. -/
def verbFor (k : MethodKind) : Verb :=
  if k = MethodKind.procedure then Verb.post else Verb.get

/-- One layer of the express route stack: the verb and nsid it matches and
the handler bound to it. -/
structure RouteLayer where
  verb : Verb
  nsid : String
  handlerId : Nat
deriving DecidableEq

/-- server.ts lines 168-189 (addRoute): registering a query or procedure
appends one layer to the express route stack, under the verb derived from
the method kind. -/
def addRoute (routes : List RouteLayer) (nsid : String) (k : MethodKind)
    (handlerId : Nat) : List RouteLayer :=
  routes ++ [⟨verbFor k, nsid, handlerId⟩]

/-- The express Router dispatch (an external collaborator of server.ts):
layers are tried in registration order and the first layer matching the
verb and path handles the request; the route handlers installed by addRoute
never pass a request on to a later layer (they end the response or route an
error to the error middleware). -/
def routeDispatch (routes : List RouteLayer) (verb : Verb) (nsid : String) :
    Option Nat :=
  (routes.find? (fun l => l.verb = verb ∧ l.nsid = nsid)).map
    (fun l => l.handlerId)

/-- The subscription registry: a JavaScript Map, whose set operation
overwrites the binding of an existing key in place (keys are unique). -/
def mapSet (m : List (String × Nat)) (k : String) (v : Nat) :
    List (String × Nat) :=
  match m with
  | [] => [(k, v)]
  | (k0, v0) :: rest =>
    if k0 = k then (k, v) :: rest else (k0, v0) :: mapSet rest k v

/-- Lookup in the subscription registry. -/
def mapGet (m : List (String × Nat)) (k : String) : Option Nat :=
  match m with
  | [] => none
  | (k0, v0) :: rest => if k0 = k then some v0 else mapGet rest k

/-- Lexicon definition lookup by nsid. -/
def lookupKind (lex : List (String × MethodKind)) (nsid : String) :
    Option MethodKind :=
  match lex with
  | [] => none
  | (k, v) :: rest => if k = nsid then some v else lookupKind rest nsid

/-- Observable catchall events: one per global limiter consumed, the
user-configured catchall, definition resolution, and the verb check. -/
inductive CEv where
  | consumeGlobal (i : Nat)
  | optCatchall
  | resolveDef
  | verbCheck
deriving DecidableEq

/-- Modelled from the spec: consumeMany of rate-limiter.ts (not under
src/), applied to the global pool.  Limiters are evaluated sequentially and
evaluation stops at the first one that rejects, so counters are not debited
speculatively after a rejection.  Each global limiter's outcome for this
request is given as a boolean (true when it allows). -/
def consumeManyGlobals (i : Nat) (outcomes : List Bool) : List CEv × Bool :=
  match outcomes with
  | [] => ([], true)
  | allowed :: rest =>
    if allowed then
      let next := consumeManyGlobals (i + 1) rest
      (CEv.consumeGlobal i :: next.1, next.2)
    else ([CEv.consumeGlobal i], false)

/-- The disposition of the catchall middleware: an error passed on, the
user-configured catchall handled the request, or the request passed through
to later middleware. -/
inductive COut where
  | nextErr (e : ErrVal)
  | handledByOpt
  | pass
deriving DecidableEq

/-- server.ts lines 191-237 (catchall): for every request reaching it, the
global limiters are consumed first; a rejection stops the request.  Then a
user-configured catchall option, when present, takes over.  Only then is
the method id resolved (failing with MethodNotImplemented when unknown) and
the verb checked against the method kind (failing with InvalidRequest
naming the expected verb). -/
def catchall (globalOutcomes : List Bool) (hasOptCatchall : Bool)
    (defn : Option MethodKind) (verb : Verb) : List CEv × COut :=
  let g := consumeManyGlobals 0 globalOutcomes
  if ¬ g.2 then (g.1, COut.nextErr (ErrVal.xrpc rateLimitExceededError))
  else if hasOptCatchall then (g.1 ++ [CEv.optCatchall], COut.handledByOpt)
  else
    match defn with
    | none =>
      (g.1 ++ [CEv.resolveDef],
        COut.nextErr (ErrVal.xrpc methodNotImplementedError))
    | some k =>
      (g.1 ++ [CEv.resolveDef, CEv.verbCheck],
        if k = MethodKind.query ∧ verb ≠ Verb.get then
          COut.nextErr (ErrVal.xrpc (invalidRequestError
            ("Incorrect HTTP method (" ++ verbName verb ++ ") expected GET")))
        else if k = MethodKind.procedure ∧ verb ≠ Verb.post then
          COut.nextErr (ErrVal.xrpc (invalidRequestError
            ("Incorrect HTTP method (" ++ verbName verb ++ ") expected POST")))
        else COut.pass)

/-- The outcome of dispatching one request through the server router. -/
inductive DispatchOut where
  | handler (id : Nat)
  | errorResp (e : ErrVal)
  | handledByOpt
  | noMatch
deriving DecidableEq

/-- Full request dispatch: the registered route stack is consulted first
(the registered routes are mounted before the catchall middleware); a
request matching no route layer falls through to the catchall. -/
def dispatchRequest (routes : List RouteLayer) (globalOutcomes : List Bool)
    (hasOptCatchall : Bool) (lex : List (String × MethodKind)) (verb : Verb)
    (nsid : String) : DispatchOut :=
  match routeDispatch routes verb nsid with
  | some hid => DispatchOut.handler hid
  | none =>
    match (catchall globalOutcomes hasOptCatchall (lookupKind lex nsid)
        verb).2 with
    | COut.nextErr e => DispatchOut.errorResp e
    | COut.handledByOpt => DispatchOut.handledByOpt
    | COut.pass => DispatchOut.noMatch

/-! ### Helper lemmas -/

theorem mapGet_mapSet (m : List (String × Nat)) (k : String) (v : Nat) :
    mapGet (mapSet m k v) k = some v := by
  induction m with
  | nil => simp [mapSet, mapGet]
  | cons hd rest ih =>
    rcases hd with ⟨k0, v0⟩
    by_cases hk : k0 = k <;> simp [mapSet, mapGet, hk, ih]

theorem find?_routes_snoc (routes : List RouteLayer) (l : RouteLayer)
    (p : RouteLayer → Bool) (hp : p l = true) :
    ∃ x, (routes ++ [l]).find? p = some x := by
  induction routes with
  | nil => exact ⟨l, by simp [List.find?, hp]⟩
  | cons hd rest ih =>
    by_cases hhd : p hd
    · exact ⟨hd, by simp [List.find?_cons, hhd]⟩
    · rcases ih with ⟨x, hx⟩
      exact ⟨x, by simp [List.find?_cons, hhd, hx]⟩

theorem consumeManyGlobals_mem (outs : List Bool) (i0 : Nat) :
    ∀ e ∈ (consumeManyGlobals i0 outs).1, ∃ j, i0 ≤ j ∧ e = CEv.consumeGlobal j := by
  induction outs generalizing i0 with
  | nil => simp [consumeManyGlobals]
  | cons a rest ih =>
    intro e he
    cases a with
    | false =>
      simp [consumeManyGlobals] at he
      exact ⟨i0, le_refl i0, he⟩
    | true =>
      simp only [consumeManyGlobals, if_true, List.mem_cons] at he
      rcases he with he | he
      · exact ⟨i0, le_refl i0, he⟩
      · rcases ih (i0 + 1) e he with ⟨j, hj, hej⟩
        exact ⟨j, by omega, hej⟩

theorem consumeManyGlobals_count_lt (outs : List Bool) (i0 j : Nat)
    (h : j < i0) :
    (consumeManyGlobals i0 outs).1.count (CEv.consumeGlobal j) = 0 := by
  rw [List.count_eq_zero]
  intro hmem
  rcases consumeManyGlobals_mem outs i0 _ hmem with ⟨j2, hj2, hej⟩
  have : j = j2 := by injection hej
  omega

theorem consumeManyGlobals_count_le (outs : List Bool) (i0 j : Nat) :
    (consumeManyGlobals i0 outs).1.count (CEv.consumeGlobal j) ≤ 1 := by
  induction outs generalizing i0 with
  | nil => simp [consumeManyGlobals]
  | cons a rest ih =>
    cases a with
    | false =>
      simp only [consumeManyGlobals, if_false]
      by_cases hj : j = i0 <;> simp [List.count_cons, hj]
    | true =>
      simp only [consumeManyGlobals, if_true]
      by_cases hj : j = i0
      · subst hj
        have h0 := consumeManyGlobals_count_lt rest (j + 1) j (by omega)
        simp [List.count_cons, h0]
      · have := ih (i0 + 1)
        simp only [List.count_cons]
        have hne : (CEv.consumeGlobal i0 = CEv.consumeGlobal j) = False := by
          simp
          intro hc
          exact hj hc.symm
        simp [hne]
        omega

theorem consumeManyGlobals_all (outs : List Bool) (i0 : Nat)
    (h : outs.all id = true) :
    consumeManyGlobals i0 outs =
      ((List.range outs.length).map (fun j => CEv.consumeGlobal (i0 + j)),
        true) := by
  induction outs generalizing i0 with
  | nil => simp [consumeManyGlobals]
  | cons a rest ih =>
    simp only [List.all_cons, Bool.and_eq_true, id] at h
    rcases h with ⟨ha, hrest⟩
    subst ha
    have hr := ih (i0 + 1) hrest
    simp only [consumeManyGlobals, if_true, hr, List.length_cons,
      List.range_succ_eq_map, List.map_cons, List.map_map]
    refine Prod.ext ?_ rfl
    simp only []
    refine List.cons_eq_cons.mpr ⟨by simp, ?_⟩
    apply List.map_congr_left
    intro j _
    simp only [Function.comp_apply]
    congr 1
    omega

theorem catchall_trace_decomp (outs : List Bool) (opt : Bool)
    (defn : Option MethodKind) (verb : Verb) :
    ∃ post, (catchall outs opt defn verb).1 =
        (consumeManyGlobals 0 outs).1 ++ post ∧
      ∀ e ∈ post, ∀ j, e ≠ CEv.consumeGlobal j := by
  by_cases hg : (consumeManyGlobals 0 outs).2 = true
  · by_cases ho : opt = true
    · refine ⟨[CEv.optCatchall], by simp [catchall, hg, ho], ?_⟩
      intro e he j
      simp at he
      subst he
      simp
    · cases defn with
      | none =>
        refine ⟨[CEv.resolveDef], by simp [catchall, hg, ho], ?_⟩
        intro e he j
        simp at he
        subst he
        simp
      | some k =>
        refine ⟨[CEv.resolveDef, CEv.verbCheck],
          by simp [catchall, hg, ho], ?_⟩
        intro e he j
        simp only [List.mem_cons, List.not_mem_nil, or_false] at he
        rcases he with he | he <;> (subst he; simp)
  · refine ⟨[], by simp [catchall, hg], by simp⟩

theorem routeDispatch_none (routes : List RouteLayer) (verb : Verb)
    (nsid : String)
    (h : ∀ l ∈ routes, l.nsid = nsid → l.verb ≠ verb) :
    routeDispatch routes verb nsid = none := by
  unfold routeDispatch
  rw [List.find?_eq_none.mpr]
  · rfl
  · intro l hl
    simp only [decide_eq_true_eq, not_and]
    intro hverb hnsid
    exact h l hl hnsid hverb

theorem normalizeItem_isErr (nsid : String) (i : SubItem)
    (h : SubItem.isRawError i = false) :
    Frame.isErr (normalizeItem nsid i) = false := by
  cases i with
  | frame f =>
    cases f with
    | message p t => simp [normalizeItem, Frame.isErr]
    | error c m => simp [SubItem.isRawError] at h
  | value v =>
    cases v with
    | str s => simp [normalizeItem, Frame.isErr]
    | int n => simp [normalizeItem, Frame.isErr]
    | map fields =>
      simp only [normalizeItem]
      cases hf : findField fields ("$type") with
      | none => simp [Frame.isErr]
      | some lv => cases lv <;> simp [Frame.isErr]

theorem countP_isErr_map_zero (nsid : String) (items : List SubItem)
    (h : ∀ i ∈ items, SubItem.isRawError i = false) :
    (items.map (normalizeItem nsid)).countP Frame.isErr = 0 := by
  rw [List.countP_eq_zero]
  intro f hf
  rcases List.mem_map.mp hf with ⟨i, hi, rfl⟩
  simp [normalizeItem_isErr nsid i (h i hi)]



theorem outputPhase_trace (vr : Bool) (o : HandlerOut) :
    (outputPhase vr o).1 = [HEv.invokeHandler] ∨
    (outputPhase vr o).1 = [HEv.invokeHandler, HEv.validateOutput] := by
  cases o <;> cases vr <;>
    simp [outputPhase] <;>
    (rename_i v; cases v <;> simp)

theorem outputPhase_no_consumeParam (vr : Bool) (o : HandlerOut) :
    HEv.consumeParam ∈ (outputPhase vr o).1 → False := by
  intro h
  rcases outputPhase_trace vr o with ht | ht <;> rw [ht] at h <;> simp at h

theorem createHandlerRun_head (nB nP : Nat) (vr : Bool) (r : HReq)
    (hn : nB ≠ 0) :
    (createHandlerRun nB nP vr r).1.head? = some HEv.consumeBasic := by
  have hbt : basicTracePart nB = [HEv.consumeBasic] := by
    simp [basicTracePart, hn]
  rcases r with ⟨b, pe, ie, prl, o⟩
  cases pe <;> cases ie <;>
    simp only [createHandlerRun] <;>
    (repeat' split) <;> simp [hbt]

theorem createHandlerRun_consumeParam (nB nP : Nat) (vr : Bool) (r : HReq)
    (hmem : HEv.consumeParam ∈ (createHandlerRun nB nP vr r).1) :
    r.paramsErr = none ∧ r.inputErr = none ∧
    ∃ t2, (createHandlerRun nB nP vr r).1 =
      (basicTracePart nB ++
        [HEv.decodeParams, HEv.validateParams, HEv.validateInput]) ++
        HEv.consumeParam :: t2 := by
  have hbt : HEv.consumeParam ∈ basicTracePart nB → False := by
    intro h
    by_cases hn : nB = 0 <;> simp [basicTracePart, hn] at h
  rcases r with ⟨b, pe, ie, prl, o⟩
  by_cases h1 : nB ≠ 0 ∧ b = RlOut.exceeded
  · exfalso
    cases pe <;> cases ie <;>
      (simp only [createHandlerRun, if_pos h1] at hmem; exact hbt hmem)
  · cases pe with
    | some m =>
      exfalso
      simp only [createHandlerRun, if_neg h1] at hmem
      rcases List.mem_append.mp hmem with h | h
      · exact hbt h
      · simp at h
    | none =>
      cases ie with
      | some e =>
        exfalso
        simp only [createHandlerRun, if_neg h1] at hmem
        rcases List.mem_append.mp hmem with h | h
        · exact hbt h
        · simp at h
      | none =>
        refine ⟨rfl, rfl, ?_⟩
        by_cases h2 : nP ≠ 0 ∧ prl = RlOut.exceeded
        · simp only [createHandlerRun, if_neg h1, if_pos h2]
          exact ⟨[], by simp⟩
        · simp only [createHandlerRun, if_neg h1, if_neg h2] at hmem ⊢
          by_cases hp : nP = 0
          · exfalso
            rcases List.mem_append.mp hmem with h | h
            · rcases List.mem_append.mp h with h | h
              · rcases List.mem_append.mp h with h | h
                · exact hbt h
                · simp at h
              · simp [hp] at h
            · exact outputPhase_no_consumeParam vr o h
          · refine ⟨(outputPhase vr o).1, ?_⟩
            simp [hp, List.append_assoc]


theorem setupStep_basicFns (creator : Bool) (nsid : String) (st : ServerRl)
    (i : Nat) (spec : RateLimitSpecM) :
    ∀ f ∈ (setupStep creator nsid st i spec).basicFns,
      f ∈ st.basicFns ∨ (f.calcKey = none ∧ f.calcPoints = none) := by
  intro f hf
  unfold setupStep at hf
  split at hf
  · split at hf
    · split at hf
      · rename_i hc
        simp only [List.mem_append, List.mem_singleton] at hf
        rcases hf with hf | hf
        · exact Or.inl hf
        · subst hf
          exact Or.inr ⟨Option.isNone_iff_eq_none.mp hc.1,
            Option.isNone_iff_eq_none.mp hc.2⟩
      · exact Or.inl hf
    · exact Or.inl hf
  · split at hf
    · split at hf
      · rename_i hc
        simp only [List.mem_append, List.mem_singleton] at hf
        rcases hf with hf | hf
        · exact Or.inl hf
        · subst hf
          exact Or.inr ⟨Option.isNone_iff_eq_none.mp hc.1,
            Option.isNone_iff_eq_none.mp hc.2⟩
      · exact Or.inl hf
    · exact Or.inl hf

theorem setupStep_paramFns (creator : Bool) (nsid : String) (st : ServerRl)
    (i : Nat) (spec : RateLimitSpecM) :
    ∀ f ∈ (setupStep creator nsid st i spec).paramFns,
      f ∈ st.paramFns ∨ ¬ (f.calcKey = none ∧ f.calcPoints = none) := by
  intro f hf
  unfold setupStep at hf
  split at hf
  · split at hf
    · split at hf
      · exact Or.inl hf
      · rename_i hc
        simp only [List.mem_append, List.mem_singleton] at hf
        rcases hf with hf | hf
        · exact Or.inl hf
        · subst hf
          refine Or.inr ?_
          intro hcc
          exact hc ⟨Option.isNone_iff_eq_none.mpr hcc.1,
            Option.isNone_iff_eq_none.mpr hcc.2⟩
    · exact Or.inl hf
  · split at hf
    · split at hf
      · exact Or.inl hf
      · rename_i hc
        simp only [List.mem_append, List.mem_singleton] at hf
        rcases hf with hf | hf
        · exact Or.inl hf
        · subst hf
          refine Or.inr ?_
          intro hcc
          exact hc ⟨Option.isNone_iff_eq_none.mpr hcc.1,
            Option.isNone_iff_eq_none.mpr hcc.2⟩
    · exact Or.inl hf

theorem setupLoop_basicFns (creator : Bool) (nsid : String)
    (cfg : List RateLimitSpecM) :
    ∀ (i : Nat) (st : ServerRl),
      (∀ f ∈ st.basicFns, f.calcKey = none ∧ f.calcPoints = none) →
      ∀ f ∈ (setupLoop creator nsid i st cfg).basicFns,
        f.calcKey = none ∧ f.calcPoints = none := by
  induction cfg with
  | nil =>
    intro i st h f hf
    exact h f hf
  | cons spec rest ih =>
    intro i st h f hf
    refine ih (i + 1) _ ?_ f hf
    intro g hg
    rcases setupStep_basicFns creator nsid st i spec g hg with hg2 | hg2
    · exact h g hg2
    · exact hg2

theorem setupLoop_paramFns (creator : Bool) (nsid : String)
    (cfg : List RateLimitSpecM) :
    ∀ (i : Nat) (st : ServerRl),
      (∀ f ∈ st.paramFns, ¬ (f.calcKey = none ∧ f.calcPoints = none)) →
      ∀ f ∈ (setupLoop creator nsid i st cfg).paramFns,
        ¬ (f.calcKey = none ∧ f.calcPoints = none) := by
  induction cfg with
  | nil =>
    intro i st h f hf
    exact h f hf
  | cons spec rest ih =>
    intro i st h f hf
    refine ih (i + 1) _ ?_ f hf
    intro g hg
    rcases setupStep_paramFns creator nsid st i spec g hg with hg2 | hg2
    · exact h g hg2
    · exact hg2

/-! ### Claims -/

/-- Claim C3, counterexample.  Registering two handler configurations for
the same query nsid appends two layers to the express route stack; a
subsequent read-verb request is dispatched to the FIRST registered handler
(id 1), not the second (id 2), so re-registration of a query or procedure
is not last-write-wins for request dispatch. -/
theorem c3_counterexample :
    routeDispatch
        (addRoute (addRoute [] ("com.example.q") MethodKind.query 1)
          ("com.example.q") MethodKind.query 2)
        Verb.get ("com.example.q") = some 1 ∧
      (1 : Nat) ≠ 2 := by
  constructor
  · rfl
  · decide

/-- Claim C3 as amended: for subscription methods re-registration under the
same id silently overwrites (the JavaScript Map set replaces the binding,
so lookups at upgrade time see the second stream server); for query and
procedure methods the second registration is appended to the express route
stack but dispatch is unchanged — the first registered handler keeps
serving every subsequent request. -/
theorem c3_amended :
    (∀ (m : List (String × Nat)) (n : String) (h1 h2 : Nat),
      mapGet (mapSet (mapSet m n h1) n h2) n = some h2) ∧
    (∀ (routes : List RouteLayer) (n : String) (k : MethodKind) (h1 h2 : Nat),
      routeDispatch (addRoute (addRoute routes n k h1) n k h2) (verbFor k) n =
        routeDispatch (addRoute routes n k h1) (verbFor k) n) := by
  constructor
  · intro m n h1 h2
    exact mapGet_mapSet (mapSet m n h1) n h2
  · intro routes n k h1 h2
    unfold routeDispatch addRoute
    have hp : (fun l : RouteLayer =>
        decide (l.verb = verbFor k ∧ l.nsid = n)) ⟨verbFor k, n, h1⟩ = true := by
      simp
    rcases find?_routes_snoc routes ⟨verbFor k, n, h1⟩
        (fun l => decide (l.verb = verbFor k ∧ l.nsid = n)) hp with ⟨x, hx⟩
    rw [show routes ++ [(⟨verbFor k, n, h1⟩ : RouteLayer)] ++
        [(⟨verbFor k, n, h2⟩ : RouteLayer)] =
        (routes ++ [(⟨verbFor k, n, h1⟩ : RouteLayer)]) ++
        [(⟨verbFor k, n, h2⟩ : RouteLayer)] from by simp]
    rw [List.find?_append, hx]
    simp

/-- Claim C9: a handler returning a declared error value produces exactly
the same pipeline disposition — and hence the same wire error status and
payload — as the same handler raising the equivalent XRPCError of the same
status, name and message. -/
theorem c9_declared_error_equals_raised (nBasic nParam : Nat) (vr : Bool)
    (b : RlOut) (pe : Option String) (ie : Option ErrVal) (prl : RlOut)
    (s : Nat) (n m : Option String) (hs : Bool) :
    createHandlerRun nBasic nParam vr
        ⟨b, pe, ie, prl, HandlerOut.handlerErr s n m⟩ =
      createHandlerRun nBasic nParam vr
        ⟨b, pe, ie, prl,
          HandlerOut.threw (ErrVal.xrpc (XRPCError.fromHandlerError s n m))⟩ ∧
    wireResult hs
        (createHandlerRun nBasic nParam vr
          ⟨b, pe, ie, prl, HandlerOut.handlerErr s n m⟩).2 =
      wireResult hs
        (createHandlerRun nBasic nParam vr
          ⟨b, pe, ie, prl,
            HandlerOut.threw
              (ErrVal.xrpc (XRPCError.fromHandlerError s n m))⟩).2 := by
  have h : outputPhase vr (HandlerOut.handlerErr s n m) =
      outputPhase vr
        (HandlerOut.threw (ErrVal.xrpc (XRPCError.fromHandlerError s n m))) := rfl
  have hmain : createHandlerRun nBasic nParam vr
      ⟨b, pe, ie, prl, HandlerOut.handlerErr s n m⟩ =
      createHandlerRun nBasic nParam vr
        ⟨b, pe, ie, prl,
          HandlerOut.threw (ErrVal.xrpc (XRPCError.fromHandlerError s n m))⟩ := by
    cases pe <;> cases ie <;>
      simp only [createHandlerRun, h]
  exact ⟨hmain, by rw [hmain]⟩

/-- Claim C10, counterexample.  With no shared limiters declared in the
server options, registering method com.example.a with one per-method spec
deposits its private limiter in the shared table under the method nsid;
a later registration of com.example.b with a shared-scope spec naming
com.example.a — a name never declared in the options — then finds that
limiter and installs a consume function instead of dropping the spec. -/
theorem c10_counterexample :
    (setupRouteRateLimits true [] ("com.example.b")
        [⟨true, "com.example.a", 0, 0, none, none⟩]
        (setupRouteRateLimits true [] ("com.example.a")
          [⟨false, "", 1000, 2, none, none⟩] []).sharedRateLimiters).basicFns.length
      = 1 := rfl

/-- Claim C10 as amended: a shared-scope spec whose name is absent from the
shared-limiter table at the moment it is processed (the table holds the
option-declared shared limiters plus the private limiters of previously
processed per-method specs, filed under their method nsid) is silently
dropped: the registration step is a no-op on the whole rate-limit state, so
no consume function is installed for it, no error is raised, and the other
specs contribute exactly as they would with the spec present but inert. -/
theorem c10_amended (creator : Bool) (nsid : String) (st : ServerRl)
    (i : Nat) (spec : RateLimitSpecM) (hsh : spec.shared = true)
    (habs : lookupShared st.sharedRateLimiters spec.name = none) :
    setupStep creator nsid st i spec = st := by
  simp [setupStep, hsh, habs]

/-- Claim C10 witness: a shared spec naming an undeclared limiter, against
an empty rate-limit state, leaves the state unchanged. -/
theorem c10_witness :
    setupStep true ("com.example.x") ⟨[], [], []⟩ 0
        ⟨true, "quota", 1000, 5, none, none⟩ = ⟨[], [], []⟩ :=
  c10_amended true ("com.example.x") ⟨[], [], []⟩ 0
    ⟨true, "quota", 1000, 5, none, none⟩ rfl rfl

/-- Claim C4, counterexample.  With two global limiters of which the first
rejects the request, consumeMany short-circuits: the catchall consumes
global limiter 0 and never consumes global limiter 1, so it is not the case
that every global spec is consumed exactly once for every incoming
request. -/
theorem c4_counterexample :
    (catchall [false, true] false none Verb.get).1.count
        (CEv.consumeGlobal 1) = 0 ∧
      (catchall [false, true] false none Verb.get).1 =
        [CEv.consumeGlobal 0] ∧
      (catchall [false, true] false none Verb.get).2 =
        COut.nextErr (ErrVal.xrpc rateLimitExceededError) := by decide

/-- Claim C4 as amended: for every incoming request reaching the catchall —
including requests whose method id resolves to no definition — the global
rate-limit specs are consumed sequentially, each at most once, stopping at
the first that rejects; when none rejects every global spec is consumed
exactly once; and every such consumption happens before definition
resolution and verb checking (the trace is a block of consume events
followed by a block containing no consume event). -/
theorem c4_amended (outs : List Bool) (opt : Bool)
    (defn : Option MethodKind) (verb : Verb) :
    (∃ post, (catchall outs opt defn verb).1 =
        (consumeManyGlobals 0 outs).1 ++ post ∧
      (∀ e ∈ (consumeManyGlobals 0 outs).1, ∃ j, e = CEv.consumeGlobal j) ∧
      (∀ e ∈ post, ∀ j, e ≠ CEv.consumeGlobal j)) ∧
    (∀ j, (catchall outs opt defn verb).1.count (CEv.consumeGlobal j) ≤ 1) ∧
    (outs.all id = true → ∀ j, j < outs.length →
      (catchall outs opt defn verb).1.count (CEv.consumeGlobal j) = 1) := by
  rcases catchall_trace_decomp outs opt defn verb with ⟨post, hpost, hnc⟩
  have hpc : ∀ j, post.count (CEv.consumeGlobal j) = 0 := by
    intro j
    rw [List.count_eq_zero]
    intro hmem
    exact hnc _ hmem j rfl
  refine ⟨⟨post, hpost, ?_, hnc⟩, ?_, ?_⟩
  · intro e he
    rcases consumeManyGlobals_mem outs 0 e he with ⟨j, _, hej⟩
    exact ⟨j, hej⟩
  · intro j
    rw [hpost, List.count_append, hpc]
    simpa using consumeManyGlobals_count_le outs 0 j
  · intro hall j hj
    rw [hpost, List.count_append, hpc]
    rw [consumeManyGlobals_all outs 0 hall]
    simp only [Nat.add_zero]
    have hinj : Function.Injective (fun j => CEv.consumeGlobal (0 + j)) := by
      intro a b hab
      simp only [Nat.zero_add] at hab
      injection hab
    rw [show CEv.consumeGlobal j = (fun j => CEv.consumeGlobal (0 + j)) j from
      by simp]
    rw [List.count_eq_one_of_mem (List.Nodup.map hinj (List.nodup_range _))
      (List.mem_map_of_mem _ (List.mem_range.mpr hj))]

/-- Claim C4 witness: with two allowing global limiters and an unresolved
method id, each global limiter is consumed exactly once. -/
theorem c4_witness :
    (catchall [true, true] false none Verb.get).1.count
        (CEv.consumeGlobal 0) = 1 ∧
      (catchall [true, true] false none Verb.get).1.count
        (CEv.consumeGlobal 1) = 1 :=
  ⟨(c4_amended [true, true] false none Verb.get).2.2 (by decide) 0
      (by decide),
    (c4_amended [true, true] false none Verb.get).2.2 (by decide) 1
      (by decide)⟩

/-- Claim C8: for a registered method, a request whose verb does not match
the method kind falls past the route stack (whose layers for that nsid all
carry the kind's verb) into the catchall, which fails with an
InvalidRequest-class error (status 400) whose message names the expected
verb, and no handler is invoked. -/
theorem c8_verb_mismatch (routes : List RouteLayer)
    (lex : List (String × MethodKind)) (outs : List Bool) (nsid : String)
    (hall : outs.all id = true) :
    (lookupKind lex nsid = some MethodKind.query →
      (∀ l ∈ routes, l.nsid = nsid → l.verb = Verb.get) →
      dispatchRequest routes outs false lex Verb.post nsid =
        DispatchOut.errorResp (ErrVal.xrpc (invalidRequestError
          ("Incorrect HTTP method (POST) expected GET"))) ∧
      ∀ h, dispatchRequest routes outs false lex Verb.post nsid ≠
        DispatchOut.handler h) ∧
    (lookupKind lex nsid = some MethodKind.procedure →
      (∀ l ∈ routes, l.nsid = nsid → l.verb = Verb.post) →
      dispatchRequest routes outs false lex Verb.get nsid =
        DispatchOut.errorResp (ErrVal.xrpc (invalidRequestError
          ("Incorrect HTTP method (GET) expected POST"))) ∧
      ∀ h, dispatchRequest routes outs false lex Verb.get nsid ≠
        DispatchOut.handler h) := by
  have hsnd : (consumeManyGlobals 0 outs).2 = true := by
    rw [consumeManyGlobals_all outs 0 hall]
  constructor
  · intro hlex hroutes
    have hnone : routeDispatch routes Verb.post nsid = none := by
      apply routeDispatch_none
      intro l hl hn
      rw [hroutes l hl hn]
      decide
    have : dispatchRequest routes outs false lex Verb.post nsid =
        DispatchOut.errorResp (ErrVal.xrpc (invalidRequestError
          ("Incorrect HTTP method (POST) expected GET"))) := by
      unfold dispatchRequest
      rw [hnone, hlex]
      simp [catchall, hsnd, verbName]
    refine ⟨this, ?_⟩
    intro h
    rw [this]
    intro hc
    exact DispatchOut.noConfusion hc
  · intro hlex hroutes
    have hnone : routeDispatch routes Verb.get nsid = none := by
      apply routeDispatch_none
      intro l hl hn
      rw [hroutes l hl hn]
      decide
    have : dispatchRequest routes outs false lex Verb.get nsid =
        DispatchOut.errorResp (ErrVal.xrpc (invalidRequestError
          ("Incorrect HTTP method (GET) expected POST"))) := by
      unfold dispatchRequest
      rw [hnone, hlex]
      simp [catchall, hsnd, verbName]
    refine ⟨this, ?_⟩
    intro h
    rw [this]
    intro hc
    exact DispatchOut.noConfusion hc

/-- Claim C8 witness: on a server with a registered query and a registered
procedure, a POST to the query id and a GET to the procedure id both fail
with InvalidRequest naming the expected verb, and neither reaches a
handler. -/
theorem c8_witness :
    dispatchRequest
        [⟨Verb.get, "com.example.q", 7⟩, ⟨Verb.post, "com.example.p", 8⟩]
        [true] false
        [("com.example.q", MethodKind.query),
          ("com.example.p", MethodKind.procedure)]
        Verb.post ("com.example.q") =
      DispatchOut.errorResp (ErrVal.xrpc (invalidRequestError
        ("Incorrect HTTP method (POST) expected GET"))) ∧
    dispatchRequest
        [⟨Verb.get, "com.example.q", 7⟩, ⟨Verb.post, "com.example.p", 8⟩]
        [true] false
        [("com.example.q", MethodKind.query),
          ("com.example.p", MethodKind.procedure)]
        Verb.get ("com.example.p") =
      DispatchOut.errorResp (ErrVal.xrpc (invalidRequestError
        ("Incorrect HTTP method (GET) expected POST"))) :=
  ⟨((c8_verb_mismatch
      [⟨Verb.get, "com.example.q", 7⟩, ⟨Verb.post, "com.example.p", 8⟩]
      [("com.example.q", MethodKind.query),
        ("com.example.p", MethodKind.procedure)]
      [true] ("com.example.q") (by decide)).1 (by decide)
      (by decide)).1,
    ((c8_verb_mismatch
      [⟨Verb.get, "com.example.q", 7⟩, ⟨Verb.post, "com.example.p", 8⟩]
      [("com.example.q", MethodKind.query),
        ("com.example.p", MethodKind.procedure)]
      [true] ("com.example.p") (by decide)).2 (by decide)
      (by decide)).1⟩

/-- Claim C5: the per-method (non-shared) rate-limit specs of two distinct
method nsids do NOT debit disjoint counters.  The creator is invoked with
the key prefix built from the literal string nsid and the spec position —
the method nsid is not interpolated — so both methods' private limiters
share the key prefix nsid-0, and under the prefix-and-key addressed counter
store two requests through method a's limiter exhaust method b's budget for
the same origin. -/
theorem c5_per_method_counters_collide :
    ∃ fa fb : InstalledRl,
      (setupRouteRateLimits true [] ("com.example.a")
          [⟨false, "", 1000, 2, none, none⟩] []).basicFns = [fa] ∧
      (setupRouteRateLimits true [] ("com.example.b")
          [⟨false, "", 1000, 2, none, none⟩] []).basicFns = [fb] ∧
      fa.limiter.prefixKey = fb.limiter.prefixKey ∧
      (fb.consumeOn [] ⟨"1.2.3.4", []⟩).2 = true ∧
      (fb.consumeOn
          ((fa.consumeOn ((fa.consumeOn [] ⟨"1.2.3.4", []⟩).1)
            ⟨"1.2.3.4", []⟩).1)
          ⟨"1.2.3.4", []⟩).2 = false := by
  refine ⟨⟨⟨"nsid-0", 1000, 2⟩, none, none⟩,
    ⟨⟨"nsid-0", 1000, 2⟩, none, none⟩, rfl, rfl, rfl, rfl, rfl⟩

/-- Claim C7: output validation is enabled by default (the validateResponse
option unset means enabled) and applies only when the handler returns an
ordinary success (empty or body success) — never on pipe-through results,
declared error values or raised failures.  With validation enabled, an
ordinary success whose body mismatches the output schema is surfaced as
InternalServerError (status 500, generic error name, no schema detail);
with validateResponse set to false the same request responds 200. -/
theorem c7_output_validation_toggle :
    (responseValidationEnabled none = true) ∧
    (∀ nBasic nParam : Nat,
      (createHandlerRun nBasic nParam (responseValidationEnabled none)
          ⟨RlOut.allowed, none, none, RlOut.allowed,
            HandlerOut.success false⟩).2 =
        HRes.nextErr (ErrVal.xrpc internalServerError) ∧
      wireResult false
          (createHandlerRun nBasic nParam (responseValidationEnabled none)
            ⟨RlOut.allowed, none, none, RlOut.allowed,
              HandlerOut.success false⟩).2 =
        WireOut.err 500 ⟨some ("InternalServerError"), none⟩) ∧
    (∀ nBasic nParam : Nat,
      (createHandlerRun nBasic nParam
          (responseValidationEnabled (some false))
          ⟨RlOut.allowed, none, none, RlOut.allowed,
            HandlerOut.success false⟩).2 = HRes.respond 200) ∧
    (∀ (nBasic nParam : Nat) (vr : Bool) (b : RlOut) (pe : Option String)
        (ie : Option ErrVal) (prl : RlOut) (s : Nat) (n m : Option String)
        (e : ErrVal),
      (createHandlerRun nBasic nParam vr
          ⟨b, pe, ie, prl, HandlerOut.pipeBuf⟩).1.count HEv.validateOutput
        = 0 ∧
      (createHandlerRun nBasic nParam vr
          ⟨b, pe, ie, prl, HandlerOut.pipeStream⟩).1.count HEv.validateOutput
        = 0 ∧
      (createHandlerRun nBasic nParam vr
          ⟨b, pe, ie, prl, HandlerOut.handlerErr s n m⟩).1.count
          HEv.validateOutput = 0 ∧
      (createHandlerRun nBasic nParam vr
          ⟨b, pe, ie, prl, HandlerOut.threw e⟩).1.count HEv.validateOutput
        = 0) := by
  refine ⟨by decide, ?_, ?_, ?_⟩
  · intro nBasic nParam
    constructor <;>
      simp [createHandlerRun, outputPhase, responseValidationEnabled,
        wireResult, XRPCError.fromError, internalServerError,
        XRPCError.payload, statusErrorName]
  · intro nBasic nParam
    simp [createHandlerRun, outputPhase, responseValidationEnabled]
  · intro nBasic nParam vr b pe ie prl s n m e
    refine ⟨?_, ?_, ?_, ?_⟩ <;>
      (cases b <;> cases pe <;> cases ie <;> cases prl <;>
        by_cases hb : nBasic = 0 <;> by_cases hp : nParam = 0 <;>
        simp [createHandlerRun, basicTracePart, outputPhase, catchWrap,
          hb, hp, List.count_eq_zero])

/-- Claim C2, counterexample.  A subscription handler may yield an item
that is already a pre-built error frame: the generator forwards it
unchanged and keeps going.  Here a handler yields an error frame and then a
plain value and ends without raising: the connection's frame sequence
contains an error frame even though nothing was raised, and a message frame
follows that error frame — so the clauses that an error frame appears only
when an error is raised, and that no frame follows an error frame, are
false as stated. -/
theorem c2_counterexample :
    subscriptionFrames ("com.example.sub")
        ⟨AuthRes.ok, none,
          [SubItem.frame (Frame.error ("Boom") none),
            SubItem.value (LexValue.str ("x"))], none⟩ =
      [Frame.error ("Boom") none,
        Frame.message (LexValue.str ("x")) none] ∧
    (subscriptionFrames ("com.example.sub")
        ⟨AuthRes.ok, none,
          [SubItem.frame (Frame.error ("Boom") none),
            SubItem.value (LexValue.str ("x"))], none⟩).countP Frame.isErr
      = 1 :=
  ⟨rfl, rfl⟩

/-- Claim C2 as amended: any error raised during authentication, parameter
validation or mid-stream execution is emitted as exactly one catch-generated
error frame which is the last element of the frame sequence — every frame
yielded before the error is delivered first and unchanged, and nothing
follows the error frame; a handler sequence that ends without raising gets
no catch-generated error frame appended, so if the handler did not itself
yield pre-built error frames (which pass through like any frame and may be
followed by further frames), the sequence contains no error frame at
all. -/
theorem c2_error_frame_terminates (nsid : String) :
    (∀ (s : Nat) (n m : Option String) (pe : Option String)
        (items : List SubItem) (se : Option ErrVal),
      subscriptionFrames nsid ⟨AuthRes.handlerErr s n m, pe, items, se⟩ =
        [errorFrameOfErr (ErrVal.xrpc (XRPCError.fromHandlerError s n m))]) ∧
    (∀ (e : ErrVal) (pe : Option String) (items : List SubItem)
        (se : Option ErrVal),
      subscriptionFrames nsid ⟨AuthRes.threw e, pe, items, se⟩ =
        [errorFrameOfErr e]) ∧
    (∀ (msg : String) (items : List SubItem) (se : Option ErrVal),
      subscriptionFrames nsid ⟨AuthRes.ok, some msg, items, se⟩ =
        [errorFrameOfErr (ErrVal.xrpc (invalidRequestError msg))]) ∧
    (∀ (items : List SubItem) (e : ErrVal),
      subscriptionFrames nsid ⟨AuthRes.ok, none, items, some e⟩ =
        items.map (normalizeItem nsid) ++ [errorFrameOfErr e] ∧
      Frame.isErr (errorFrameOfErr e) = true ∧
      ((∀ i ∈ items, SubItem.isRawError i = false) →
        (subscriptionFrames nsid
            ⟨AuthRes.ok, none, items, some e⟩).countP Frame.isErr = 1)) ∧
    (∀ items : List SubItem,
      subscriptionFrames nsid ⟨AuthRes.ok, none, items, none⟩ =
        items.map (normalizeItem nsid) ∧
      ((∀ i ∈ items, SubItem.isRawError i = false) →
        (subscriptionFrames nsid
            ⟨AuthRes.ok, none, items, none⟩).countP Frame.isErr = 0)) := by
  refine ⟨fun s n m pe items se => rfl, fun e pe items se => rfl,
    fun msg items se => rfl, ?_, ?_⟩
  · intro items e
    refine ⟨rfl, rfl, ?_⟩
    intro hraw
    show (items.map (normalizeItem nsid) ++
        [errorFrameOfErr e]).countP Frame.isErr = 1
    rw [List.countP_append, countP_isErr_map_zero nsid items hraw]
    rfl
  · intro items
    have h0 : subscriptionFrames nsid ⟨AuthRes.ok, none, items, none⟩ =
        items.map (normalizeItem nsid) ++ [] := rfl
    refine ⟨h0.trans (List.append_nil _), ?_⟩
    intro hraw
    show (items.map (normalizeItem nsid) ++ []).countP Frame.isErr = 0
    rw [List.append_nil]
    exact countP_isErr_map_zero nsid items hraw

/-- Claim C2 witness: a handler that yields one plain value and then raises
InvalidRequest produces that value's message frame followed by exactly one
terminal error frame. -/
theorem c2_witness :
    subscriptionFrames ("com.example.sub")
        ⟨AuthRes.ok, none, [SubItem.value (LexValue.str ("x"))],
          some (ErrVal.xrpc (invalidRequestError ("Oops")))⟩ =
      [Frame.message (LexValue.str ("x")) none,
        Frame.error ("InvalidRequest") (some ("Oops"))] ∧
    (subscriptionFrames ("com.example.sub")
        ⟨AuthRes.ok, none, [SubItem.value (LexValue.str ("x"))],
          some (ErrVal.xrpc (invalidRequestError ("Oops")))⟩).countP
        Frame.isErr = 1 := by
  have h := (c2_error_frame_terminates ("com.example.sub")).2.2.2.1
    [SubItem.value (LexValue.str ("x"))]
    (ErrVal.xrpc (invalidRequestError ("Oops")))
  refine ⟨h.1, h.2.2 ?_⟩
  intro i hi
  simp only [List.mem_singleton] at hi
  subst hi
  rfl

/-- Claim C6: item normalization on the wire.  An item that is already a
frame is forwarded unchanged.  A map value whose declared type lies in the
subscription's own namespace (nsid hash name, or a bare hash name) is
wrapped as a message frame tagged with the short local form and its payload
loses the type field; a declared type outside the namespace is kept in full
as the tag; a map with no string-valued declared type, and any non-map
value, is wrapped as a message frame without a tag. -/
theorem c6_item_normalization (nsid : String) (f : Frame)
    (fields : List (String × LexValue)) (t tagName s2 : String) (n2 : Int)
    (sub : List (String × LexValue)) :
    (normalizeItem nsid (SubItem.frame f) = f) ∧
    (findField fields ("$type") = some (LexValue.str t) →
      (splitHash t = ["", tagName] ∨ splitHash t = [nsid, tagName]) →
      normalizeItem nsid (SubItem.value (LexValue.map fields)) =
        Frame.message (LexValue.map (removeField fields ("$type")))
          (some ("#" ++ tagName))) ∧
    (findField fields ("$type") = some (LexValue.str t) →
      ¬ ((splitHash t).length = 2 ∧
          ((splitHash t).head? = some ("") ∨
            (splitHash t).head? = some nsid)) →
      normalizeItem nsid (SubItem.value (LexValue.map fields)) =
        Frame.message (LexValue.map (removeField fields ("$type")))
          (some t)) ∧
    (findField fields ("$type") = none →
      normalizeItem nsid (SubItem.value (LexValue.map fields)) =
        Frame.message (LexValue.map fields) none) ∧
    (findField fields ("$type") = some (LexValue.int n2) →
      normalizeItem nsid (SubItem.value (LexValue.map fields)) =
        Frame.message (LexValue.map fields) none) ∧
    (findField fields ("$type") = some (LexValue.map sub) →
      normalizeItem nsid (SubItem.value (LexValue.map fields)) =
        Frame.message (LexValue.map fields) none) ∧
    (normalizeItem nsid (SubItem.value (LexValue.str s2)) =
      Frame.message (LexValue.str s2) none) ∧
    (normalizeItem nsid (SubItem.value (LexValue.int n2)) =
      Frame.message (LexValue.int n2) none) := by
  refine ⟨rfl, ?_, ?_, ?_, ?_, ?_, rfl, rfl⟩
  · intro hf hsplit
    simp only [normalizeItem, hf]
    rcases hsplit with hs | hs <;>
      rw [hs] <;> simp
  · intro hf hcond
    simp only [normalizeItem, hf]
    rw [if_neg hcond]
  · intro hf
    simp [normalizeItem, hf]
  · intro hf
    simp [normalizeItem, hf]
  · intro hf
    simp [normalizeItem, hf]

/-- Claim C6 witness: concrete normalizations — an own-namespace type is
shortened and the type field dropped, a bare local type is kept short, a
foreign-namespace type is kept in full, and a pre-built frame passes
through. -/
theorem c6_witness :
    normalizeItem ("com.example.sub")
        (SubItem.value (LexValue.map
          [("$type", LexValue.str ("com.example.sub#msg")),
            ("k", LexValue.str ("v"))])) =
      Frame.message (LexValue.map [("k", LexValue.str ("v"))])
        (some ("#msg")) ∧
    normalizeItem ("com.example.sub")
        (SubItem.value (LexValue.map [("$type", LexValue.str ("#evt"))])) =
      Frame.message (LexValue.map []) (some ("#evt")) ∧
    normalizeItem ("com.example.sub")
        (SubItem.value (LexValue.map
          [("$type", LexValue.str ("other.ns#evt")),
            ("k", LexValue.str ("v"))])) =
      Frame.message (LexValue.map [("k", LexValue.str ("v"))])
        (some ("other.ns#evt")) ∧
    normalizeItem ("com.example.sub")
        (SubItem.frame (Frame.message (LexValue.int 3) none)) =
      Frame.message (LexValue.int 3) none := by
  refine ⟨?_, ?_, ?_, ?_⟩
  · have h := (c6_item_normalization ("com.example.sub")
      (Frame.message (LexValue.int 3) none)
      [("$type", LexValue.str ("com.example.sub#msg")),
        ("k", LexValue.str ("v"))]
      ("com.example.sub#msg") ("msg") ("") 0 []).2.1 rfl
      (Or.inr (by decide))
    exact h
  · have h := (c6_item_normalization ("com.example.sub")
      (Frame.message (LexValue.int 3) none)
      [("$type", LexValue.str ("#evt"))]
      ("#evt") ("evt") ("") 0 []).2.1 rfl (Or.inl (by decide))
    exact h
  · have h := (c6_item_normalization ("com.example.sub")
      (Frame.message (LexValue.int 3) none)
      [("$type", LexValue.str ("other.ns#evt")),
        ("k", LexValue.str ("v"))]
      ("other.ns#evt") ("") ("") 0 []).2.2.1 rfl (by decide)
    exact h
  · exact (c6_item_normalization ("com.example.sub")
      (Frame.message (LexValue.int 3) none) [] ("") ("") ("") 0 []).1

/-- Claim C1: rate-limit classification and consumption order.  Every
consume function in the basic pool (globals included) carries no key- or
cost-derivation override, and every consume function in the parametric pool
carries at least one, so a configured spec with neither function can only
be installed basic and any other installed spec only parametric.  When the
basic pool is nonempty its consumption is the first pipeline event, before
parameter decoding, parameter validation and input validation; and a
parametric consumption event occurs only when parameter validation and
input validation both succeeded, strictly after the decode and validation
events. -/
theorem c1_rate_limit_classification_and_order (creator : Bool) (globals : List RateLimiterInst)
    (nsid : String) (cfg : List RateLimitSpecM)
    (shared0 : List (String × RateLimiterInst)) (vr : Bool) (r : HReq)
    (nB nP : Nat)
    (hnB : nB =
      (setupRouteRateLimits creator globals nsid cfg shared0).basicFns.length)
    (hnP : nP =
      (setupRouteRateLimits creator globals nsid cfg shared0).paramFns.length) :
    (∀ f ∈ (setupRouteRateLimits creator globals nsid cfg shared0).basicFns,
      f.calcKey = none ∧ f.calcPoints = none) ∧
    (∀ f ∈ (setupRouteRateLimits creator globals nsid cfg shared0).paramFns,
      ¬ (f.calcKey = none ∧ f.calcPoints = none)) ∧
    (nB ≠ 0 →
      (createHandlerRun nB nP vr r).1.head? = some HEv.consumeBasic) ∧
    (HEv.consumeParam ∈ (createHandlerRun nB nP vr r).1 →
      r.paramsErr = none ∧ r.inputErr = none ∧
      ∃ t2, (createHandlerRun nB nP vr r).1 =
        (basicTracePart nB ++
          [HEv.decodeParams, HEv.validateParams, HEv.validateInput]) ++
          HEv.consumeParam :: t2) := by
  refine ⟨?_, ?_, ?_, ?_⟩
  · apply setupLoop_basicFns
    intro f hf
    rcases List.mem_map.mp hf with ⟨g, _, rfl⟩
    exact ⟨rfl, rfl⟩
  · apply setupLoop_paramFns
    intro f hf
    simp at hf
  · intro hn
    exact createHandlerRun_head nB nP vr r hn
  · intro hmem
    exact createHandlerRun_consumeParam nB nP vr r hmem

/-- Claim C1 witness: a method with one basic and one parametric spec; the
request trace starts with the basic consumption and the parametric
consumption happens after decode, parameter validation and input
validation. -/
theorem c1_witness :
    (createHandlerRun 1 1 true
        ⟨RlOut.allowed, none, none, RlOut.allowed,
          HandlerOut.success true⟩).1.head? = some HEv.consumeBasic ∧
    ∃ t2, (createHandlerRun 1 1 true
        ⟨RlOut.allowed, none, none, RlOut.allowed,
          HandlerOut.success true⟩).1 =
      (basicTracePart 1 ++
        [HEv.decodeParams, HEv.validateParams, HEv.validateInput]) ++
        HEv.consumeParam :: t2 := by
  have h := c1_rate_limit_classification_and_order true [] ("com.example.m")
    [⟨false, "", 1000, 10, none, none⟩,
      ⟨false, "", 1000, 10, none, some (fun _ => 2)⟩]
    [] true
    ⟨RlOut.allowed, none, none, RlOut.allowed, HandlerOut.success true⟩
    1 1 rfl rfl
  exact ⟨h.2.2.1 (by decide), (h.2.2.2 (by decide)).2.2⟩

end XrpcServer
